import Mathlib

/-!
A shallow embedding of the Musl interpreter core (src/musl.c) in Lean 4.

The C cursor `const char *m->s` into a NUL-terminated source buffer is
modelled as the remaining suffix of the source, `Option (List Char)`
(`none` models a NULL pointer, as set by `mu_halt`; the empty list models
the cursor standing on the terminating NUL).  Saved positions (labels,
the GOSUB and FOR stacks, `m->last`) are likewise suffixes.  The
`longjmp`-based error unwinding of `mu_throw` is modelled by `Except`,
with the interpreter state at the moment of the throw carried inside the
error so that the catch sites (`mu_run`, `mu_gosub`) can build
`error_text` from it exactly as the C code does.  Heap management
(`malloc`/`free`/`strdup`) has no observable effect on values and is not
modelled; `malloc` failure paths are consequently never taken.  The three
chained hash tables are modelled as association lists: `find_var` returns
the first entry with a matching name and `put_var` appends at the end of
the chain, which preserves both observable behaviours of the C table.
Since the interpreter can loop forever (e.g. a NEXT whose step overshoots
its stop value), the mutually recursive statement executor and expression
evaluator are defined down a fuel parameter; running out of fuel is a
distinguished outcome `MuErr.noFuel`, never confused with a genuine
interpreter error `MuErr.err`.
-/

/- ===== Character classification (ASCII, mirroring <ctype.h> in the C locale) ===== -/

def nlC : Char := Char.ofNat 10
def crC : Char := Char.ofNat 13
def tabC : Char := Char.ofNat 9
def vtC : Char := Char.ofNat 11
def ffC : Char := Char.ofNat 12
def quoteC : Char := Char.ofNat 34
def aposC : Char := Char.ofNat 39
def backslashC : Char := Char.ofNat 92

def isSpaceC (c : Char) : Bool :=
  c = ' ' || c = tabC || c = nlC || c = crC || c = vtC || c = ffC

def isDigitC (c : Char) : Bool := '0' ≤ c && c ≤ '9'

def isAlphaC (c : Char) : Bool := ('a' ≤ c && c ≤ 'z') || ('A' ≤ c && c ≤ 'Z')

def isAlnumC (c : Char) : Bool := isAlphaC c || isDigitC c

def toLowerC (c : Char) : Char :=
  if 'A' ≤ c && c ≤ 'Z' then Char.ofNat (c.toNat + 32) else c

/-- The single-character operator set `OPERATORS` of musl.c. -/
def isOperC (c : Char) : Bool := ("=<>~+-*/%&()[],:".toList).contains c

/- ===== Size limits (the #defines of musl.c) ===== -/

def TOK_SIZE : Nat := 80
def MAX_PARAMS : Nat := 20
def MAX_GOSUB : Nat := 20
def MAX_FOR : Nat := 5
def MAX_ERROR_TEXT : Nat := 80

/- ===== Tagged values (struct mu_par / the variable payload of struct var) ===== -/

/-- A tagged scalar value: `mu_int` or `mu_str` of struct mu_par. -/
inductive Par where
  | int (i : Int)
  | str (s : String)
deriving DecidableEq

/-- C's `atoi` digit loop: accumulate decimal digits, stop at the first
non-digit. -/
def atoiDigits (acc : Int) : List Char → Int
  | [] => acc
  | c :: cs => if isDigitC c then atoiDigits (acc * 10 + ((c.toNat : Int) - 48)) cs else acc

/-- C's `atoi` on a character list: skip whitespace, optional single sign,
then decimal digits (0 if none). -/
def atoiL (l : List Char) : Int :=
  match l.dropWhile (fun c => isSpaceC c) with
  | '-' :: rest => - atoiDigits 0 rest
  | '+' :: rest => atoiDigits 0 rest
  | l1 => atoiDigits 0 l1

def atoi (s : String) : Int := atoiL s.data

/-- The character for a decimal digit value. -/
def digitChar (d : Nat) : Char :=
  if d = 0 then '0' else if d = 1 then '1' else if d = 2 then '2'
  else if d = 3 then '3' else if d = 4 then '4' else if d = 5 then '5'
  else if d = 6 then '6' else if d = 7 then '7' else if d = 8 then '8' else '9'

/-- Decimal digits of a natural number, most significant first, as
produced by `sprintf("%d", ...)`.  The inner fuel makes the definition
structural; `n + 1` steps always suffice since the argument divides by
ten each step. -/
def natDigitsAux : Nat → Nat → List Char
  | 0, _ => []
  | f + 1, n =>
    if n < 10 then [digitChar n]
    else natDigitsAux f (n / 10) ++ [digitChar (n % 10)]

def natToDigits (n : Nat) : List Char := natDigitsAux (n + 1) n

/-- `sprintf("%d", n)`: base-10 rendering with a leading minus sign for
negative values. -/
def intToDec (n : Int) : String :=
  if n < 0 then ⟨'-' :: natToDigits n.natAbs⟩ else ⟨natToDigits n.natAbs⟩

/-- `par_as_int` of musl.c: an integer passes through, a string converts
via `atoi`. -/
def par_as_int (p : Par) : Int :=
  match p with
  | .int n => n
  | .str s => atoi s

/-- `par_as_str` of musl.c: a string passes through, an integer renders in
base 10. -/
def par_as_str (p : Par) : String :=
  match p with
  | .str s => s
  | .int n => intToDec n

/-- Sign of C `strcmp` on character lists (unsigned byte comparison; only
the sign is ever used by musl.c). -/
def strcmpC : List Char → List Char → Int
  | [], [] => 0
  | [], _ :: _ => -1
  | _ :: _, [] => 1
  | a :: as', b :: bs' =>
    if a.toNat < b.toNat then -1 else if b.toNat < a.toNat then 1 else strcmpC as' bs'

def strcmpS (a b : String) : Int := strcmpC a.data b.data

/- ===== Tokens ===== -/

/-- Token kinds: the `T_...` integer codes of musl.c, with single-character
operator tokens as `chr c`. -/
inductive Tok where
  | tEnd | tIdent | tNumber | tString | tLF
  | tLet | tIf | tThen | tGoto | tAnd | tOr | tNot | tGosub | tReturn | tKEnd | tOn
  | tFor | tTo | tDo | tStep | tNext
  | chr (c : Char)
deriving DecidableEq

/-- The integer value of a token as printed by `%d` in error messages. -/
def tokCode : Tok → Nat
  | .tEnd => 0
  | .tIdent => 1
  | .tNumber => 2
  | .tString => 3
  | .tLF => 4
  | .tLet => 256
  | .tIf => 257
  | .tThen => 258
  | .tGoto => 259
  | .tAnd => 260
  | .tOr => 261
  | .tNot => 262
  | .tGosub => 263
  | .tReturn => 264
  | .tKEnd => 265
  | .tOn => 266
  | .tFor => 267
  | .tTo => 268
  | .tDo => 269
  | .tStep => 270
  | .tNext => 271
  | .chr c => c.toNat

/-- The keyword table of musl.c (`iskeyword`), applied to the lowered
identifier text. -/
def iskeyword (s : String) : Option Tok :=
  if s = "let" then some .tLet
  else if s = "if" then some .tIf
  else if s = "then" then some .tThen
  else if s = "end" then some .tKEnd
  else if s = "on" then some .tOn
  else if s = "goto" then some .tGoto
  else if s = "gosub" then some .tGosub
  else if s = "return" then some .tReturn
  else if s = "and" then some .tAnd
  else if s = "or" then some .tOr
  else if s = "not" then some .tNot
  else if s = "for" then some .tFor
  else if s = "to" then some .tTo
  else if s = "do" then some .tDo
  else if s = "step" then some .tStep
  else if s = "next" then some .tNext
  else none

/- ===== The whitespace / comment / continuation skipping phase of tokenize ===== -/

/-- Result of the skipping phase at the head of `tokenize`. -/
inductive SkipOut where
  | lf (rest : List Char)
  | cend
  | content (rest : List Char)
  | bad (rest : List Char)
deriving DecidableEq

/-- The `#` comment loop of `tokenize`: consume up to (but not including) the
next newline and yield T_LF there, or T_END when the buffer ends first. -/
def skipComment : List Char → SkipOut
  | [] => .cend
  | c :: cs => if c = nlC then .lf (c :: cs) else skipComment cs

/-- The whitespace loop, `#` comment and backslash-newline continuation
handling at the head of `tokenize`.  Mode `true` means a backslash was just
consumed and non-newline whitespace is being skipped toward the required
newline (the `do { m->s++; } while(...)` loop). -/
def skipWSAux : Bool → List Char → SkipOut
  | mode, [] => if mode then .bad [] else .content []
  | false, c :: cs =>
    if isSpaceC c then (if c = nlC then .lf cs else skipWSAux false cs)
    else if c = '#' then skipComment cs
    else if c = backslashC then skipWSAux true cs
    else .content (c :: cs)
  | true, c :: cs =>
    if c = nlC then skipWSAux false cs
    else if isSpaceC c then skipWSAux true cs
    else .bad (c :: cs)

/- ===== Token text scanners ===== -/

/-- The escape translation inside quoted strings (`\n \r \t`, any other
character taken literally). -/
def escChar (e : Char) : Char :=
  if e = 'n' then nlC else if e = 'r' then crC else if e = 't' then tabC else e

/-- The quoted-string loop of `tokenize`: scan until the terminator,
translating escapes, with the C bound and NUL checks in the same order. -/
def scanStr (term : Char) (acc : List Char) : List Char → Except String (List Char × List Char)
  | [] => .error ("Unterminated string")
  | c :: cs =>
    if c = term then .ok (acc, cs)
    else if acc.length > TOK_SIZE - 2 then .error ("Token too long")
    else if c = backslashC then
      match cs with
      | [] => .error ("Unterminated string")
      | e :: cs2 => scanStr term (acc ++ [escChar e]) cs2
    else scanStr term (acc ++ [c]) cs

/-- The raw-string loop of `tokenize` (`r"..."`): no escapes. -/
def scanRaw (term : Char) (acc : List Char) : List Char → Except String (List Char × List Char)
  | [] => .error ("Unterminated string")
  | c :: cs =>
    if c = term then .ok (acc, cs)
    else if acc.length > TOK_SIZE - 2 then .error ("Token too long")
    else scanRaw term (acc ++ [c]) cs

/-- The identifier loop of `tokenize`: consume alphanumerics, `_` and `$`,
lowering as it copies. -/
def scanIdent (acc : List Char) : List Char → Except String (List Char × List Char)
  | [] => .ok (acc, [])
  | c :: cs =>
    if isAlnumC c || c = '_' || c = '$' then
      if acc.length > TOK_SIZE - 2 then .error ("Token too long")
      else scanIdent (acc ++ [toLowerC c]) cs
    else .ok (acc, c :: cs)

/-- The number loop of `tokenize`: consume decimal digits. -/
def scanNum (acc : List Char) : List Char → Except String (List Char × List Char)
  | [] => .ok (acc, [])
  | c :: cs =>
    if isDigitC c then
      if acc.length > TOK_SIZE - 2 then .error ("Token too long")
      else scanNum (acc ++ [c]) cs
    else .ok (acc, c :: cs)

/- ===== Interpreter state (struct musl) ===== -/

/-- The host extension functions this development registers on the
instance.  `record` models the driver's PRINT function (main.c
`my_print`): it is observable from outside the interpreter, appending its
arguments to the `out` field of the state and returning the argument
count. -/
inductive FuncId where
  | record
deriving DecidableEq

/-- The interpreter instance, struct musl.  `s` is the parse cursor,
`last` the token pushback position, `token` the token text buffer.  The
three hash tables are association lists; the label payload is a source
suffix; a `none` function payload is a disabled function.  The GOSUB
stack holds saved cursors, with `none` as the host-callback sentinel
(the NULL pushed by `mu_gosub`); its head is the top, so `gosub_sp` is
its length, and likewise for the FOR stack.  The `start` field (only
used for line counting in diagnostics) and the opaque `user` slot are
omitted; `argc`/`argv` are passed to functions directly rather than
stored.  `out` is the host-observable output of the `record` extension
function. -/
structure Musl where
  s : Option (List Char) := none
  last : Option (List Char) := none
  token : String := ""
  vars : List (String × Par) := []
  labels : List (String × List Char) := []
  funcs : List (String × Option FuncId) := []
  active : Bool := true
  gosub_stack : List (Option (List Char)) := []
  for_stack : List (Option (List Char)) := []
  error_msg : String := ""
  error_text : String := ""
  out : List Par := []
deriving DecidableEq

/-- Interpreter errors: a `mu_throw` with its message, or fuel exhaustion
(an artefact of the fuelled model, never produced by the embedded code
itself). -/
inductive MuErr where
  | err (msg : String)
  | noFuel
deriving DecidableEq

/-- The interpreter result monad: `mu_throw` carries the state at the
throw inside the error, and every computation returns its value paired
with the updated state. -/
abbrev ExM (α : Type) : Type := Except (MuErr × Musl) α

def throwErr {α : Type} (m : Musl) (msg : String) : ExM α := .error (.err msg, m)

/-- The cursor as a list, where the C code dereferences `m->s` knowing it
is non-NULL. -/
def curPos (m : Musl) : List Char := m.s.getD []

/- ===== Lookup tables (find_var / put_var on association lists) ===== -/

/-- `find_var`: first entry with the given name. -/
def find_var {α : Type} : List (String × α) → String → Option α
  | [], _ => none
  | (k, v) :: rest, name => if k = name then some v else find_var rest name

/-- `put_var`: append a new entry at the end of the chain. -/
def put_var {α : Type} (tbl : List (String × α)) (name : String) (v : α) : List (String × α) :=
  tbl ++ [(name, v)]

/-- In-place update of the first entry with the given name (the C code
mutates the `struct var` found by `find_var`). -/
def replace_first {α : Type} : List (String × α) → String → α → List (String × α)
  | [], _, _ => []
  | (k, w) :: rest, name, v =>
    if k = name then (k, v) :: rest else (k, w) :: replace_first rest name v

/- ===== Variable accessors ===== -/

/-- `mu_set_num`: create or overwrite a variable with an integer value. -/
def mu_set_num (m : Musl) (name : String) (num : Int) : Musl :=
  match find_var m.vars name with
  | none => {m with vars := put_var m.vars name (.int num)}
  | some _ => {m with vars := replace_first m.vars name (.int num)}

/-- `mu_get_num`: 0 when undefined, `atoi` of a string value. -/
def mu_get_num (m : Musl) (name : String) : Int :=
  match find_var m.vars name with
  | none => 0
  | some (.int n) => n
  | some (.str v) => atoi v

/-- `mu_set_str`: create or overwrite a variable with a string value. -/
def mu_set_str (m : Musl) (name : String) (val : String) : Musl :=
  match find_var m.vars name with
  | none => {m with vars := put_var m.vars name (.str val)}
  | some _ => {m with vars := replace_first m.vars name (.str val)}

/-- `mu_get_str`: NULL when undefined; when the stored value is an
integer, the entry itself is rewritten to its base-10 rendering before
that string is returned (the C code overwrites `v->type` and `v->v.s`). -/
def mu_get_str (m : Musl) (name : String) : Option String × Musl :=
  match find_var m.vars name with
  | none => (none, m)
  | some (.str v) => (some v, m)
  | some (.int n) =>
    (some (intToDec n), {m with vars := replace_first m.vars name (.str (intToDec n))})

/-- `mu_halt`: force the cursor to NULL so the next tokenize yields
T_END. -/
def mu_halt (m : Musl) : Musl := {m with s := none, last := none}

/- ===== The lexical analyser ===== -/

/-- `tok_reset`: one level of token pushback, re-reading from the last
token's starting position. -/
def tok_reset (m : Musl) : Musl :=
  match m.last with
  | some l => {m with s := some l}
  | none => m

/-- The outcome of one tokenization from a given (non-NULL) cursor:
the token (or a lexical error message), the new token-buffer text
(`none` when the C code leaves `m->token` untouched, as for operators,
T_LF and T_END), the position stored into `m->last`, and the new
cursor. -/
structure LexOut where
  res : Except String Tok
  tokText : Option (List Char)
  lastP : List Char
  sP : List Char

/-- The token-recognition block of `tokenize` (everything after line 321
of musl.c), applied to the post-skip cursor `r`; `m->last` has just been
set to `r`. -/
def recognizeTok (r : List Char) : LexOut :=
  match r with
  | [] => ⟨.ok .tEnd, none, r, r⟩
  | c :: cs =>
    if c = quoteC || c = aposC then
      match scanStr c [] cs with
      | .ok (tk, rest) => ⟨.ok .tString, some tk, r, rest⟩
      | .error e => ⟨.error e, none, r, r⟩
    else if toLowerC c = 'r' && (cs.head? = some quoteC || cs.head? = some aposC) then
      match cs with
      | q :: cs2 =>
        match scanRaw q [] cs2 with
        | .ok (tk, rest) => ⟨.ok .tString, some tk, r, rest⟩
        | .error e => ⟨.error e, none, r, r⟩
      | [] => ⟨.ok .tEnd, none, r, r⟩
    else if isAlphaC c || c = '_' then
      match scanIdent [] r with
      | .ok (tk, rest) => ⟨.ok ((iskeyword ⟨tk⟩).getD .tIdent), some tk, r, rest⟩
      | .error e => ⟨.error e, none, r, r⟩
    else if isDigitC c then
      match scanNum [] r with
      | .ok (tk, rest) => ⟨.ok .tNumber, some tk, r, rest⟩
      | .error e => ⟨.error e, none, r, r⟩
    else if isOperC c then ⟨.ok (.chr c), none, r, cs⟩
    else ⟨.error ("Unknown token '" ++ ⟨[c]⟩ ++ "'"), none, r, r⟩

/-- The body of `tokenize` as a function of the cursor.  `m->last` is set
to the cursor at entry, and again to the post-skip position once real
token content is reached (line 321 of musl.c), so the early T_LF/T_END
returns from the skipping phase record the entry position instead. -/
def tokenizeL (l : List Char) : LexOut :=
  match skipWSAux false l with
  | .lf rest => ⟨.ok .tLF, none, l, rest⟩
  | .cend => ⟨.ok .tEnd, none, l, []⟩
  | .bad rest => ⟨.error ("Bad '\\' at end of line"), none, l, rest⟩
  | .content r => recognizeTok r

/-- `tokenize`: produce the next token, updating cursor, pushback
position and token buffer.  A NULL cursor yields T_END without touching
`m->last`.  On a lexical error the carried state has the cursor left at
the start of the offending token; the only readers of that cursor are
the catch blocks of `mu_run`/`mu_gosub`, which apply `tok_reset` first,
so this agrees observationally with the C cursor at the throw. -/
def tokState (m : Musl) (l : List Char) : Musl :=
  let r := tokenizeL l
  let tkn : String := match r.tokText with | some tk => ⟨tk⟩ | none => m.token
  {m with last := some r.lastP, s := some r.sP, token := tkn}

def tokenize (m : Musl) : ExM (Tok × Musl) :=
  match m.s with
  | none => .ok (.tEnd, m)
  | some l =>
    match (tokenizeL l).res with
    | .ok t => .ok (t, tokState m l)
    | .error e => .error (.err e, tokState m l)

/- ===== Value-level comparison (the operator part of comp_expr) ===== -/

/-- The comparison step of `comp_expr` once both operands are evaluated:
the C code dispatches on the type of the LEFT operand only.  When it is a
string, the right operand is coerced to string and `strcmp` decides; when
it is an integer, the right operand is coerced to integer. -/
def compareVals (t : Char) (lhs rhs : Par) : Par :=
  match lhs with
  | .str ls =>
    let rs := par_as_str rhs
    let r := strcmpS ls rs
    .int (if (t = '=' ∧ r = 0) ∨ (t = '<' ∧ r < 0) ∨ (t = '>' ∧ r > 0) ∨ (t = '~' ∧ r ≠ 0)
          then 1 else 0)
  | .int li =>
    let ri := par_as_int rhs
    .int (if t = '=' then (if li = ri then 1 else 0)
          else if t = '<' then (if li < ri then 1 else 0)
          else if t = '>' then (if li > ri then 1 else 0)
          else (if li ≠ ri then 1 else 0))

/- ===== Extension functions ===== -/

/-- Invocation of a registered extension function (`v->v.fun(m, argc,
argv)`).  `record` appends its arguments to the host-visible `out` list
and returns the argument count, modelling the driver's PRINT. -/
def applyFunc (f : FuncId) (m : Musl) (argc : Nat) (argv : List Par) : ExM (Par × Musl) :=
  match f with
  | .record => .ok (.int (argc : Int), {m with out := m.out ++ argv})

/- ===== The fused parser/evaluator ===== -/

/-- One fuel level of the mutually recursive interpreter: the statement
executor, the expression-evaluator cascade and their inner loops.  Each
field corresponds to one C function or one loop inside a C function;
calls through `I` are the mutual recursive calls, which the fuel
construction `interpN` resolves one level down. -/
structure Interp where
  program : Bool → Musl → ExM (Unit × Musl)
  stmt : Musl → ExM (Option (List Char) × Musl)
  stmtChain : Musl → ExM (Option (List Char) × Musl)
  skipLFs : Musl → ExM (Unit × Musl)
  forSkip : Musl → ExM (Unit × Musl)
  onList : Tok → Int → Int → Musl → ExM (Option (List Char) × Musl)
  onConsume : Musl → ExM (Unit × Musl)
  fparams : String → Musl → ExM (Par × Musl)
  fparamsLoop : String → List Par → Musl → ExM (List Par × Musl)
  expr : Musl → ExM (Par × Musl)
  and_expr : Musl → ExM (Par × Musl)
  not_expr : Musl → ExM (Par × Musl)
  comp_expr : Musl → ExM (Par × Musl)
  cat_expr : Musl → ExM (Par × Musl)
  add_expr : Musl → ExM (Par × Musl)
  mul_expr : Musl → ExM (Par × Musl)
  uexpr : Musl → ExM (Par × Musl)
  atom : Musl → ExM (Par × Musl)
  orLoop : Int → Musl → ExM (Int × Musl)
  andLoop : Int → Musl → ExM (Int × Musl)
  catLoop : String → Musl → ExM (String × Musl)
  addLoop : Int → Tok → Musl → ExM (Int × Musl)
  mulLoop : Int → Tok → Musl → ExM (Int × Musl)

/-- The `while(tokenize(m) == T_LF); tok_reset(m);` idiom (after THEN and
after `:`). -/
def skipLFsBody (I : Interp) (m : Musl) : ExM (Unit × Musl) := do
  let (t, m) ← tokenize m
  if t = .tLF then I.skipLFs m else .ok ((), tok_reset m)

/-- The trailing statement-chaining check of `stmt`: `:` continues with
another statement (blank lines skipped), otherwise a newline, END or
end-of-input must follow. -/
def stmtChainBody (I : Interp) (m : Musl) : ExM (Option (List Char) × Musl) := do
  let (t, m) ← tokenize m
  if t = .chr ':' then do
    let (_, m) ← I.skipLFs m
    I.stmt m
  else if t ≠ .tLF ∧ t ≠ .tKEnd ∧ t ≠ .tEnd then
    throwErr m ("':' or <LF> expected (" ++ toString (tokCode t) ++ ")")
  else .ok (none, tok_reset m)

/-- The token-skipping loop that an inactive FOR uses to scan its body to
the matching NEXT without executing it (nested statements are recognized
by recursive `stmt` calls, which are themselves inactive). -/
def forSkipBody (I : Interp) (m : Musl) : ExM (Unit × Musl) := do
  let (t, m) ← tokenize m
  if t = .tNext then .ok ((), m)
  else do
    let x := m.last
    if t = .tNumber ∨ t = .tLF then I.forSkip m
    else if t = .tIdent then do
      let (t2, m) ← tokenize m
      if t2 = .chr ':' then I.forSkip m
      else do
        let (_, m) ← I.stmt {m with s := x}
        I.forSkip m
    else do
      let (_, m) ← I.stmt (tok_reset m)
      I.forSkip m

/-- The label-list loop of `ON expr GOTO/GOSUB`: `j` counts labels seen
while active; the selected label jumps (GOSUB first consumes the rest of
the list and pushes the position after it). -/
def onListBody (I : Interp) (u : Tok) (n j : Int) (m : Musl) : ExM (Option (List Char) × Musl) := do
  let (q, m) ← tokenize m
  if q ≠ .tIdent ∧ q ≠ .tNumber then throwErr m ("Label expected")
  else if m.active ∧ j = n then
    match find_var m.labels m.token with
    | none => throwErr m ("ON .. GOTO/GOSUB to undefined label '" ++ m.token ++ "'")
    | some pos =>
      if u = .tGosub then
        if m.gosub_stack.length ≥ MAX_GOSUB - 1 then throwErr m ("GOSUB stack overflow")
        else do
          let (_, m) ← I.onConsume m
          .ok (some pos, {m with gosub_stack := m.s :: m.gosub_stack})
      else .ok (some pos, m)
  else do
    let j2 := if m.active then j + 1 else j
    let (t2, m) ← tokenize m
    if t2 = .chr ',' then I.onList u n j2 m
    else .ok (none, m)

/-- The `while(tokenize(m) == ',') ...` loop that ON..GOSUB uses to skip
the remaining labels before pushing the resumption position. -/
def onConsumeBody (I : Interp) (m : Musl) : ExM (Unit × Musl) := do
  let (t, m) ← tokenize m
  if t = .chr ',' then do
    let (q, m) ← tokenize m
    if q ≠ .tIdent ∧ q ≠ .tNumber then throwErr m ("Label expected")
    else I.onConsume m
  else .ok ((), tok_reset m)

/-- The parameter-collecting loop of `fparams`. -/
def fparamsLoopBody (I : Interp) (name : String) (ps : List Par) (m : Musl) :
    ExM (List Par × Musl) := do
  let (t, m) ← tokenize m
  if t = .chr ')' then .ok (ps, m)
  else if ps.length ≥ MAX_PARAMS then
    throwErr m ("Too many parameters to function " ++ name)
  else do
    let (p, m) ← I.expr (tok_reset m)
    let ps2 := ps ++ [p]
    let (t2, m) ← tokenize m
    if t2 = .chr ')' then .ok (ps2, m)
    else if t2 = .chr ',' then I.fparamsLoop name ps2 m
    else throwErr m ("Expected ')'")

/-- `fparams`: evaluate the arguments left to right, then look the
function up — an undefined or disabled name is fatal regardless of the
active flag — and invoke it only when the instance is active, the result
defaulting to integer 0 otherwise. -/
def fparamsBody (I : Interp) (name : String) (m : Musl) : ExM (Par × Musl) := do
  let (ps, m) ← I.fparamsLoop name [] m
  match find_var m.funcs name with
  | none => throwErr m ("Call to undefined function " ++ name ++ "()")
  | some none => throwErr m ("Call to undefined function " ++ name ++ "()")
  | some (some f) =>
    if m.active then applyFunc f m ps.length ps
    else .ok (.int 0, m)

/-- `expr ::= and_expr [OR and_expr]*` (bitwise or on coerced
integers). -/
def exprBody (I : Interp) (m : Musl) : ExM (Par × Musl) := do
  let (lhs, m) ← I.and_expr m
  let (t, m) ← tokenize m
  if t = .tOr then do
    let (n, m) ← I.orLoop (par_as_int lhs) m
    .ok (.int n, tok_reset m)
  else .ok (lhs, tok_reset m)

def orLoopBody (I : Interp) (n : Int) (m : Musl) : ExM (Int × Musl) := do
  let (rhs, m) ← I.and_expr m
  let n2 := Int.lor n (par_as_int rhs)
  let (t, m) ← tokenize m
  if t = .tOr then I.orLoop n2 m else .ok (n2, m)

/-- `and_expr ::= not_expr [AND not_expr]*` (bitwise and). -/
def andExprBody (I : Interp) (m : Musl) : ExM (Par × Musl) := do
  let (lhs, m) ← I.not_expr m
  let (t, m) ← tokenize m
  if t = .tAnd then do
    let (n, m) ← I.andLoop (par_as_int lhs) m
    .ok (.int n, tok_reset m)
  else .ok (lhs, tok_reset m)

def andLoopBody (I : Interp) (n : Int) (m : Musl) : ExM (Int × Musl) := do
  let (rhs, m) ← I.not_expr m
  let n2 := Int.land n (par_as_int rhs)
  let (t, m) ← tokenize m
  if t = .tAnd then I.andLoop n2 m else .ok (n2, m)

/-- `not_expr ::= [NOT] comp_expr` (logical not). -/
def notExprBody (I : Interp) (m : Musl) : ExM (Par × Musl) := do
  let (t, m) ← tokenize m
  if t = .tNot then do
    let (lhs, m) ← I.comp_expr m
    .ok (.int (if par_as_int lhs = 0 then 1 else 0), m)
  else I.comp_expr (tok_reset m)

/-- `comp_expr ::= cat_expr [('='|'<'|'>'|'~') cat_expr]`, comparing via
`compareVals`. -/
def compExprBody (I : Interp) (m : Musl) : ExM (Par × Musl) := do
  let (lhs, m) ← I.cat_expr m
  let (t, m) ← tokenize m
  match t with
  | .chr c =>
    if c = '=' ∨ c = '<' ∨ c = '>' ∨ c = '~' then do
      let (rhs, m) ← I.cat_expr m
      .ok (compareVals c lhs rhs, m)
    else .ok (lhs, tok_reset m)
  | _ => .ok (lhs, tok_reset m)

/-- `cat_expr ::= add_expr ['&' add_expr]*` (string concatenation, both
sides coerced to string). -/
def catExprBody (I : Interp) (m : Musl) : ExM (Par × Musl) := do
  let (lhs, m) ← I.add_expr m
  let (t, m) ← tokenize m
  if t = .chr '&' then do
    let (acc, m) ← I.catLoop (par_as_str lhs) m
    .ok (.str acc, tok_reset m)
  else .ok (lhs, tok_reset m)

def catLoopBody (I : Interp) (acc : String) (m : Musl) : ExM (String × Musl) := do
  let (rhs, m) ← I.add_expr m
  let acc2 := acc ++ par_as_str rhs
  let (t, m) ← tokenize m
  if t = .chr '&' then I.catLoop acc2 m else .ok (acc2, m)

/-- `add_expr ::= mul_expr [('+'|'-') mul_expr]*`. -/
def addExprBody (I : Interp) (m : Musl) : ExM (Par × Musl) := do
  let (lhs, m) ← I.mul_expr m
  let (t, m) ← tokenize m
  if t = .chr '+' ∨ t = .chr '-' then do
    let (n, m) ← I.addLoop (par_as_int lhs) t m
    .ok (.int n, tok_reset m)
  else .ok (lhs, tok_reset m)

def addLoopBody (I : Interp) (n : Int) (t : Tok) (m : Musl) : ExM (Int × Musl) := do
  let (rhs, m) ← I.mul_expr m
  let n2 := if t = .chr '+' then n + par_as_int rhs else n - par_as_int rhs
  let (t2, m) ← tokenize m
  if t2 = .chr '+' ∨ t2 = .chr '-' then I.addLoop n2 t2 m else .ok (n2, m)

/-- `mul_expr ::= uexpr [('*'|'/'|'%') uexpr]*`; division and modulo are
C truncated division, and a zero right operand is fatal. -/
def mulExprBody (I : Interp) (m : Musl) : ExM (Par × Musl) := do
  let (lhs, m) ← I.uexpr m
  let (t, m) ← tokenize m
  if t = .chr '*' ∨ t = .chr '/' ∨ t = .chr '%' then do
    let (n, m) ← I.mulLoop (par_as_int lhs) t m
    .ok (.int n, tok_reset m)
  else .ok (lhs, tok_reset m)

def mulLoopBody (I : Interp) (n : Int) (t : Tok) (m : Musl) : ExM (Int × Musl) := do
  let (rhs, m) ← I.uexpr m
  let r := par_as_int rhs
  let step1 : ExM (Int × Musl) :=
    if t = .chr '*' then .ok (n * r, m)
    else if t = .chr '/' then
      (if r = 0 then throwErr m ("Divide by zero") else .ok (Int.tdiv n r, m))
    else
      (if r = 0 then throwErr m ("Divide by zero") else .ok (Int.tmod n r, m))
  let (n2, m) ← step1
  let (t2, m) ← tokenize m
  if t2 = .chr '*' ∨ t2 = .chr '/' ∨ t2 = .chr '%' then I.mulLoop n2 t2 m
  else .ok (n2, m)

/-- `uexpr ::= ['-'|'+'] atom`. -/
def uexprBody (I : Interp) (m : Musl) : ExM (Par × Musl) := do
  let (t, m) ← tokenize m
  if t = .chr '-' then do
    let (lhs, m) ← I.atom m
    .ok (.int (- par_as_int lhs), m)
  else if t = .chr '+' then I.atom m
  else I.atom (tok_reset m)

/-- The variable-read tail of `atom`: an undefined variable is fatal
only when the instance is active; under a suppressed branch it yields
the default `{mu_int, {0}}` initializer of `ret`. -/
def varRead (m : Musl) (name : String) : ExM (Par × Musl) :=
  match find_var m.vars name with
  | none =>
    if m.active then throwErr m ("Read from undefined variable '" ++ name ++ "'")
    else .ok (.int 0, m)
  | some v => .ok (v, m)

/-- `atom`: parenthesized expression, identifier (indexed, called, or
plain variable read — an undefined variable is fatal only when active,
yielding integer 0 otherwise), number or string literal. -/
def atomBody (I : Interp) (m : Musl) : ExM (Par × Musl) := do
  let (t, m) ← tokenize m
  match t with
  | .chr '(' => do
    let (lhs, m) ← I.expr m
    let (t2, m) ← tokenize m
    if t2 = .chr ')' then .ok (lhs, m) else throwErr m ("Missing ')'")
  | .tIdent => do
    let buf := m.token
    let (u, m) ← tokenize m
    if u = .chr '(' then I.fparams buf m
    else do
      let (name, m) ←
        (if u = .chr '[' then do
          let (rhs, m) ← I.expr m
          let nm : String := ⟨(buf ++ "[" ++ par_as_str rhs ++ "]").data.take (TOK_SIZE - 1)⟩
          let (t2, m) ← tokenize m
          if t2 = .chr ']' then (.ok (nm, m) : ExM (String × Musl)) else throwErr m ("Missing ']'")
        else .ok (buf, tok_reset m))
      varRead m name
  | .tNumber => .ok (.int (atoi m.token), m)
  | .tString => .ok (.str m.token, m)
  | _ => throwErr m ("Value expected")

/-- The FOR/NEXT loop-header parse `ident '=' expr TO expr [STEP expr]
DO` as re-evaluated by NEXT from the saved FOR-stack position: all three
header expressions are re-evaluated on every NEXT, and a missing STEP
defaults to 1 or -1 according to `start < stop`. -/
def forHeader (I : Interp) (m : Musl) : ExM ((String × Int × Int × Int) × Musl) := do
  let (t2, m) ← tokenize m
  if t2 ≠ .tIdent then throwErr m ("Identifier expected after FOR")
  else do
    let buf := m.token
    let (t3, m) ← tokenize m
    if t3 ≠ .chr '=' then throwErr m ("'=' expected")
    else do
      let (rhs, m) ← I.expr m
      let start := par_as_int rhs
      let (t4, m) ← tokenize m
      if t4 ≠ .tTo then throwErr m ("TO expected")
      else do
        let (rhs2, m) ← I.expr m
        let sto := par_as_int rhs2
        let (t5, m) ← tokenize m
        let (stp, m) ←
          (if t5 = .tStep then do
            let (rhs3, m) ← I.expr m
            (.ok (par_as_int rhs3, m) : ExM (Int × Musl))
          else .ok ((if start < sto then (1 : Int) else -1), tok_reset m))
        let (t6, m) ← tokenize m
        if t6 ≠ .tDo then throwErr m ("DO expected")
        else .ok ((buf, start, sto, stp), m)

/-- `stmt`: recognize and execute exactly one statement.  Returns `none`
for fall-through and `some pos` for a control transfer; the special
"return to the host" case (RETURN popping the `mu_gosub` sentinel) sets
the cursor to `none` and returns `none`. -/
def stmtBody (I : Interp) (m : Musl) : ExM (Option (List Char) × Musl) := do
  let (t, m) ← tokenize m
  if t = .tIdent ∨ t = .tLet then do
    let (has_let, m) ←
      (if t = .tLet then do
        let (t2, m) ← tokenize m
        if t2 = .tIdent then (.ok (true, m) : ExM (Bool × Musl))
        else throwErr m ("Identifier expected")
      else .ok (false, m))
    let buf := m.token
    let (t2, m) ← tokenize m
    let (hn, m) ←
      (if t2 = .chr '[' then do
        let (rhs, m) ← I.expr m
        let nm : String := ⟨(buf ++ "[" ++ par_as_str rhs ++ "]").data.take (TOK_SIZE - 1)⟩
        let (t3, m) ← tokenize m
        if t3 = .chr ']' then (.ok ((true, nm), m) : ExM ((Bool × String) × Musl))
        else throwErr m ("Missing ']'")
      else .ok ((has_let, buf), tok_reset m))
    let (has_let, name) := hn
    let (u, m) ← tokenize m
    let (_, m) ←
      (if u = .chr '=' then do
        let (rhs, m) ← I.expr m
        match rhs with
        | .str sv => (.ok ((), if m.active then mu_set_str m name sv else m) : ExM (Unit × Musl))
        | .int iv => .ok ((), if m.active then mu_set_num m name iv else m)
      else if ¬has_let ∧ u = .chr '(' then do
        let (_, m) ← I.fparams name m
        (.ok ((), m) : ExM (Unit × Musl))
      else .ok ((), m))
    I.stmtChain m
  else if t = .tIf then do
    let save := m.active
    let (rhs, m) ← I.expr m
    let m := if m.active then {m with active := decide (par_as_int rhs ≠ 0)} else m
    let (t2, m) ← tokenize m
    if t2 ≠ .tThen then throwErr m ("THEN expected")
    else do
      let (_, m) ← I.skipLFs m
      let (result, m) ← I.stmt m
      let m := {m with active := save}
      match result with
      | some pos => .ok (some pos, m)
      | none => I.stmtChain m
  else if t = .tGoto ∨ t = .tGosub then do
    let (u, m) ← tokenize m
    if u ≠ .tIdent ∧ u ≠ .tNumber then throwErr m ("Label expected")
    else do
      let (_, m) ←
        (if m.active ∧ t = .tGosub then
          (if m.gosub_stack.length ≥ MAX_GOSUB - 1 then
            (throwErr m ("GOSUB stack overflow") : ExM (Unit × Musl))
          else .ok ((), {m with gosub_stack := m.s :: m.gosub_stack}))
        else .ok ((), m))
      match find_var m.labels m.token with
      | none => throwErr m ("GOTO/GOSUB to undefined label '" ++ m.token ++ "'")
      | some pos =>
        if m.active then .ok (some pos, m)
        else I.stmtChain m
  else if t = .tReturn then
    match m.gosub_stack with
    | [] => throwErr m ("GOSUB stack underflow")
    | top :: rest =>
      if m.active then
        let m := {m with s := top, last := none, gosub_stack := rest}
        match top with
        | none => .ok (none, m)
        | some _ => I.stmtChain m
      else I.stmtChain m
  else if t = .tOn then do
    let (rhs, m) ← I.expr m
    let n := par_as_int rhs
    let (u, m) ← tokenize m
    if u ≠ .tGoto ∧ u ≠ .tGosub then throwErr m ("GOTO or GOSUB expected")
    else do
      let (res, m) ← I.onList u n 0 m
      match res with
      | some pos => .ok (some pos, m)
      | none => I.stmtChain (tok_reset m)
  else if t = .tFor then
    if m.for_stack.length ≥ MAX_FOR then throwErr m ("FOR stack overflow")
    else do
      let m := {m with for_stack := m.s :: m.for_stack}
      let (t2, m) ← tokenize m
      if t2 ≠ .tIdent then throwErr m ("Identifier expected after FOR")
      else do
        let buf := m.token
        let (t3, m) ← tokenize m
        if t3 ≠ .chr '=' then throwErr m ("'=' expected")
        else do
          let (rhs, m) ← I.expr m
          let start := par_as_int rhs
          let (t4, m) ← tokenize m
          if t4 ≠ .tTo then throwErr m ("TO expected")
          else do
            let (_, m) ← I.expr m
            let (t5, m) ← tokenize m
            let (_, m) ←
              (if t5 = .tStep then do
                let (_, m) ← I.expr m
                (.ok ((), m) : ExM (Unit × Musl))
              else .ok ((), tok_reset m))
            let (t6, m) ← tokenize m
            if t6 ≠ .tDo then throwErr m ("DO expected")
            else
              if m.active then I.stmtChain (mu_set_num m buf start)
              else do
                let m := {m with for_stack := m.for_stack.tail}
                let (t7, m) ← tokenize m
                if t7 ≠ .tLF then throwErr m ("<LF> expected")
                else do
                  let (_, m) ← I.forSkip m
                  I.stmtChain m
  else if t = .tNext then
    if m.active then
      let save := m.s
      match m.for_stack with
      | [] => throwErr m ("FOR stack underflow")
      | top :: _ => do
        let (hdr, m) ← forHeader I {m with s := top}
        let (buf, _, sto, stp) := hdr
        let idx := mu_get_num m buf
        if idx = sto then .ok (none, {m with s := save, for_stack := m.for_stack.tail})
        else .ok (none, mu_set_num m buf (idx + stp))
    else .ok (none, m)
  else if t = .tKEnd ∨ t = .tEnd then
    .ok (none, if m.active then tok_reset m else m)
  else throwErr m ("Statement expected (" ++ toString (tokCode t) ++ ")")

/-- `program`: the statement loop.  At the start of a line (first
iteration or after a newline token) a leading label — `NUMBER` or
`IDENT ':'` — is skipped; otherwise one statement executes, a returned
position becoming the new cursor. -/
def programBody (I : Interp) (ft : Bool) (m : Musl) : ExM (Unit × Musl) := do
  let (t, m) ← tokenize m
  if t = .tEnd ∨ t = .tKEnd then .ok ((), m)
  else if ft ∨ t = .tLF then do
    let (t2, m) ← (if ft then (.ok (t, m) : ExM (Tok × Musl)) else tokenize m)
    if t2 = .tIdent then do
      let x := m.last
      let (t3, m) ← tokenize m
      let m := if t3 = .chr ':' then m else {m with s := x}
      I.program false m
    else do
      let m := if t2 ≠ .tNumber then tok_reset m else m
      I.program false m
  else do
    let (res, m) ← I.stmt (tok_reset m)
    match res with
    | some pos => I.program false {m with s := some pos, last := none}
    | none => I.program false m

/-- The zero-fuel interpreter: every call reports fuel exhaustion. -/
def fuelInterp : Interp where
  program := fun _ m => .error (.noFuel, m)
  stmt := fun m => .error (.noFuel, m)
  stmtChain := fun m => .error (.noFuel, m)
  skipLFs := fun m => .error (.noFuel, m)
  forSkip := fun m => .error (.noFuel, m)
  onList := fun _ _ _ m => .error (.noFuel, m)
  onConsume := fun m => .error (.noFuel, m)
  fparams := fun _ m => .error (.noFuel, m)
  fparamsLoop := fun _ _ m => .error (.noFuel, m)
  expr := fun m => .error (.noFuel, m)
  and_expr := fun m => .error (.noFuel, m)
  not_expr := fun m => .error (.noFuel, m)
  comp_expr := fun m => .error (.noFuel, m)
  cat_expr := fun m => .error (.noFuel, m)
  add_expr := fun m => .error (.noFuel, m)
  mul_expr := fun m => .error (.noFuel, m)
  uexpr := fun m => .error (.noFuel, m)
  atom := fun m => .error (.noFuel, m)
  orLoop := fun _ m => .error (.noFuel, m)
  andLoop := fun _ m => .error (.noFuel, m)
  catLoop := fun _ m => .error (.noFuel, m)
  addLoop := fun _ _ m => .error (.noFuel, m)
  mulLoop := fun _ _ m => .error (.noFuel, m)

/-- One more level of fuel on top of `I`. -/
def mkInterp (I : Interp) : Interp where
  program := programBody I
  stmt := stmtBody I
  stmtChain := stmtChainBody I
  skipLFs := skipLFsBody I
  forSkip := forSkipBody I
  onList := onListBody I
  onConsume := onConsumeBody I
  fparams := fparamsBody I
  fparamsLoop := fparamsLoopBody I
  expr := exprBody I
  and_expr := andExprBody I
  not_expr := notExprBody I
  comp_expr := compExprBody I
  cat_expr := catExprBody I
  add_expr := addExprBody I
  mul_expr := mulExprBody I
  uexpr := uexprBody I
  atom := atomBody I
  orLoop := orLoopBody I
  andLoop := andLoopBody I
  catLoop := catLoopBody I
  addLoop := addLoopBody I
  mulLoop := mulLoopBody I

def interpN : Nat → Interp
  | 0 => fuelInterp
  | n + 1 => mkInterp (interpN n)

/-- The statement executor at a given fuel. -/
def stmt (fuel : Nat) : Musl → ExM (Option (List Char) × Musl) := (interpN fuel).stmt

/-- The statement loop at a given fuel. -/
def program (fuel : Nat) : Bool → Musl → ExM (Unit × Musl) := (interpN fuel).program

/-- The expression evaluator at a given fuel. -/
def expr (fuel : Nat) : Musl → ExM (Par × Musl) := (interpN fuel).expr

/-- `atom` at a given fuel. -/
def atom (fuel : Nat) : Musl → ExM (Par × Musl) := (interpN fuel).atom

/-- `fparams` at a given fuel. -/
def fparams (fuel : Nat) (name : String) : Musl → ExM (Par × Musl) := (interpN fuel).fparams name

/- ===== The label pre-pass (scan_labels) ===== -/

/-- The scanning loop of `scan_labels`: at each line start, a NUMBER
records a numeric label (which must strictly exceed `ln`, the previous
numeric label, and must not already be in the table), and an IDENT
followed by `:` records a textual label — with no duplicate check. -/
def scanLoop : Nat → Musl → Bool → Int → ExM (Unit × Musl)
  | 0, m, _, _ => .error (.noFuel, m)
  | fuel + 1, m, ft, ln => do
    let (t, m) ← (if ft then (.ok (Tok.tEnd, m) : ExM (Tok × Musl)) else tokenize m)
    if ¬ft ∧ t = .tEnd then .ok ((), m)
    else if ft ∨ t = .tLF then do
      let (t2, m) ← tokenize m
      if t2 = .tNumber then do
        let c := atoi m.token
        if c ≤ ln then throwErr m ("Label " ++ toString c ++ " out of sequence")
        else if (find_var m.labels m.token).isSome then
          throwErr m ("Duplicate label '" ++ m.token ++ "'")
        else scanLoop fuel {m with labels := put_var m.labels m.token (curPos m)} false c
      else if t2 = .tIdent then do
        let lbl := m.token
        let (t3, m) ← tokenize m
        let m := if t3 = .chr ':' then {m with labels := put_var m.labels lbl (curPos m)} else m
        scanLoop fuel m false ln
      else do
        let m := if ¬ft ∧ t = .tLF then tok_reset m else m
        scanLoop fuel m false ln
    else scanLoop fuel m false ln

/-- `scan_labels`: index every label, then restore the cursor (only on
success — a throw leaves the cursor at the offending token, exactly as
`longjmp` does). -/
def scan_labels (fuel : Nat) (m : Musl) : ExM (Unit × Musl) := do
  let store := m.s
  let (_, m1) ← scanLoop fuel m true (-1)
  .ok ((), {m1 with s := store})

/- ===== Error reporting and the run/callback orchestrator ===== -/

/-- `vsnprintf(m->error_msg, MAX_ERROR_TEXT-1, ...)`: at most 78
characters are stored. -/
def strTake78 (s : String) : String := ⟨s.data.take (MAX_ERROR_TEXT - 2)⟩

def errMsgStr : MuErr → String
  | .err msg => strTake78 msg
  | .noFuel => "interpreter fuel exhausted"

/-- The error-excerpt loop shared by `mu_run` and `mu_gosub`: up to
`MAX_ERROR_TEXT - 1` characters of the failing line. -/
def errExcerpt (l : List Char) : String :=
  ⟨(l.take (MAX_ERROR_TEXT - 1)).takeWhile (fun c => c ≠ nlC)⟩

/-- `mu_error_msg`. -/
def mu_error_msg (m : Musl) : String := m.error_msg

/-- `mu_error_text`. -/
def mu_error_text (m : Musl) : String := m.error_text

/-- `mu_run`: index the labels, run the statement loop from the top, and
clear the label table on the way out — but only on success: the error
path captures the diagnostics and returns 0 with the label table left as
it was at the throw. -/
def mu_run (fuel : Nat) (m : Musl) (script : List Char) : Bool × Musl :=
  let m0 := {m with s := some script, last := none}
  match (do
      let (_, m1) ← scan_labels fuel m0
      program fuel true m1 : ExM (Unit × Musl)) with
  | .ok (_, m2) => (true, {m2 with labels := []})
  | .error (e, m2) =>
    let m3 := tok_reset m2
    (false, {m3 with error_msg := errMsgStr e, error_text := errExcerpt (curPos m3)})

/-- `mu_gosub`: a host-initiated callback into a script subroutine.  The
label is resolved, the NULL sentinel pushed, the cursor and GOSUB depth
saved, and a nested statement loop runs with its own error boundary;
errors are caught here and reported as a 0 return.  The saved cursor and
stack depth are restored on every exit path.  (The C code restores only
`gosub_sp`; entries below the sentinel are never written by the nested
loop, so restoring the saved stack is observationally identical.) -/
def mu_gosub (fuel : Nat) (m : Musl) (label : String) : Bool × Musl :=
  match find_var m.labels label with
  | none => (false, {m with error_msg := strTake78 ("GOSUB to undefined label")})
  | some pos =>
    if m.gosub_stack.length ≥ MAX_GOSUB - 1 then
      (false, {m with error_msg := strTake78 ("GOSUB stack overflow")})
    else
      let save := m.s
      let saveStack := m.gosub_stack
      let m1 := {m with s := some pos, last := none, gosub_stack := none :: m.gosub_stack}
      match program fuel true m1 with
      | .ok (_, m2) => (true, {m2 with s := save, last := none, gosub_stack := saveStack})
      | .error (e, m2) =>
        let m3 := tok_reset m2
        let m4 := {m3 with error_msg := errMsgStr e, error_text := errExcerpt (curPos m3)}
        (false, {m4 with s := save, last := none, gosub_stack := saveStack})

/-- A fresh instance with the driver's PRINT registered (as `record`).
The standard string/number library of `add_stdfuns` is irrelevant to the
properties here and is not preloaded. -/
def hostMusl : Musl := {funcs := [("print", some .record)]}

/- ===== Basic lemmas about the monadic plumbing ===== -/

@[simp] theorem exBindOk {α β : Type} (a : α) (f : α → ExM β) :
    ((.ok a : ExM α) >>= f) = f a := rfl

@[simp] theorem exBindErr {α β : Type} (e : MuErr × Musl) (f : α → ExM β) :
    ((.error e : ExM α) >>= f) = .error e := rfl

/- ===== Decimal rendering / parsing round trip ===== -/

theorem isDigitC_digitChar {d : Nat} (h : d < 10) : isDigitC (digitChar d) = true := by
  interval_cases d <;> decide

theorem isSpaceC_digitChar {d : Nat} (h : d < 10) : isSpaceC (digitChar d) = false := by
  interval_cases d <;> decide

theorem digitChar_ne_minus {d : Nat} (h : d < 10) : digitChar d ≠ '-' := by
  interval_cases d <;> decide

theorem digitChar_ne_plus {d : Nat} (h : d < 10) : digitChar d ≠ '+' := by
  interval_cases d <;> decide

theorem digitChar_val {d : Nat} (h : d < 10) :
    ((digitChar d).toNat : Int) - 48 = (d : Int) := by
  interval_cases d <;> decide

theorem natDigitsAux_digits {f n : Nat} (h : n < f) :
    ∀ c ∈ natDigitsAux f n, isDigitC c = true := by
  induction f generalizing n with
  | zero => omega
  | succ f ih =>
    intro c hc
    rw [natDigitsAux] at hc
    by_cases h10 : n < 10
    · simp only [if_pos h10, List.mem_singleton] at hc
      subst hc; exact isDigitC_digitChar h10
    · simp only [if_neg h10, List.mem_append, List.mem_singleton] at hc
      rcases hc with hc | hc
      · exact ih (by omega) c hc
      · subst hc; exact isDigitC_digitChar (Nat.mod_lt _ (by omega))

theorem natDigitsAux_ne_nil {f n : Nat} (h : n < f) : natDigitsAux f n ≠ [] := by
  cases f with
  | zero => omega
  | succ f =>
    rw [natDigitsAux]
    by_cases h10 : n < 10 <;> simp [h10]

theorem atoiDigits_append_all (acc : Int) (xs ys : List Char)
    (hx : ∀ c ∈ xs, isDigitC c = true) :
    atoiDigits acc (xs ++ ys) = atoiDigits (atoiDigits acc xs) ys := by
  induction xs generalizing acc with
  | nil => simp [atoiDigits]
  | cons c cs ih =>
    have hc : isDigitC c = true := hx c (by simp)
    simp only [List.cons_append, atoiDigits, hc, if_pos]
    exact ih _ (fun c' hc' => hx c' (by simp [hc']))

theorem atoiDigits_natDigitsAux {f n : Nat} (h : n < f) (acc : Int) :
    atoiDigits acc (natDigitsAux f n) = acc * 10 ^ (natDigitsAux f n).length + n := by
  induction f generalizing n acc with
  | zero => omega
  | succ f ih =>
    rw [natDigitsAux]
    by_cases h10 : n < 10
    · rw [if_pos h10]
      simp [atoiDigits, isDigitC_digitChar h10, digitChar_val h10]
    · rw [if_neg h10]
      have hrec : n / 10 < f := by omega
      rw [atoiDigits_append_all _ _ _ (natDigitsAux_digits hrec)]
      rw [ih hrec]
      have hd : (n % 10 : Nat) < 10 := Nat.mod_lt _ (by omega)
      simp only [atoiDigits, isDigitC_digitChar hd, if_pos]
      rw [List.length_append, List.length_cons, List.length_nil]
      rw [pow_succ]
      have hmod : ((n : Int)) = ((n / 10 : Nat) : Int) * 10 + ((n % 10 : Nat) : Int) := by
        push_cast
        omega
      rw [digitChar_val hd]
      ring_nf
      rw [hmod]
      ring

theorem atoiDigits_natToDigits (n : Nat) : atoiDigits 0 (natToDigits n) = n := by
  have := atoiDigits_natDigitsAux (Nat.lt_succ_self n) 0
  simpa [natToDigits] using this

theorem digit_not_space {c : Char} (hc : isDigitC c = true) : isSpaceC c = false := by
  cases hsp : isSpaceC c
  · rfl
  · exfalso
    simp only [isSpaceC, Bool.or_eq_true, decide_eq_true_eq] at hsp
    rcases hsp with ((((h | h) | h) | h) | h) | h <;> subst h <;> revert hc <;> decide

theorem atoiL_all_digits (l : List Char) (hne : l ≠ [])
    (hd : ∀ c ∈ l, isDigitC c = true) : atoiL l = atoiDigits 0 l := by
  cases l with
  | nil => exact absurd rfl hne
  | cons c cs =>
    have hc : isDigitC c = true := hd c (by simp)
    have hsp : isSpaceC c = false := digit_not_space hc
    have hminus : c ≠ '-' := by
      intro he; subst he; revert hc; decide
    have hplus : c ≠ '+' := by
      intro he; subst he; revert hc; decide
    unfold atoiL
    rw [List.dropWhile_cons]
    simp only [hsp, Bool.false_eq_true, if_false]
    split
    next heq => injection heq with h1 _; exact absurd h1 hminus
    next heq => injection heq with h1 _; exact absurd h1 hplus
    next => rfl

theorem natToDigits_digits (n : Nat) : ∀ c ∈ natToDigits n, isDigitC c = true :=
  natDigitsAux_digits (Nat.lt_succ_self n)

theorem natToDigits_ne_nil (n : Nat) : natToDigits n ≠ [] :=
  natDigitsAux_ne_nil (Nat.lt_succ_self n)

/-- The decimal round trip on the character level: `atoi` of
`sprintf("%d", n)` recovers `n`. -/
theorem atoi_intToDec (n : Int) : atoi (intToDec n) = n := by
  unfold atoi intToDec
  by_cases hn : n < 0
  · rw [if_pos hn]
    show atoiL ('-' :: natToDigits n.natAbs) = n
    unfold atoiL
    rw [List.dropWhile_cons]
    have hsp : isSpaceC '-' = false := by decide
    rw [hsp]
    simp only [Bool.false_eq_true, if_false]
    show - atoiDigits 0 (natToDigits n.natAbs) = n
    rw [atoiDigits_natToDigits]
    omega
  · rw [if_neg hn]
    show atoiL (natToDigits n.natAbs) = n
    rw [atoiL_all_digits _ (natToDigits_ne_nil _) (natToDigits_digits _)]
    rw [atoiDigits_natToDigits]
    omega

/- ===== Lookup-table lemmas ===== -/

theorem find_var_replace_first {α : Type} (tbl : List (String × α)) (name : String) (v : α)
    (h : (find_var tbl name).isSome) :
    find_var (replace_first tbl name v) name = some v := by
  induction tbl with
  | nil => simp [find_var] at h
  | cons kv rest ih =>
    obtain ⟨k, w⟩ := kv
    by_cases hk : k = name
    · subst hk; simp [find_var, replace_first]
    · simp only [find_var, replace_first, hk, if_false, if_neg hk] at h ⊢
      exact ih h

/- ===== Tokenizer replay lemmas ===== -/

theorem skipComment_ne_content (l : List Char) (r : List Char) :
    skipComment l ≠ .content r := by
  induction l with
  | nil => simp [skipComment]
  | cons c cs ih =>
    rw [skipComment]
    by_cases h : c = nlC <;> simp [h, ih]

/-- A position reported as token content by the skipping phase is a fixed
point of the skipping phase: re-scanning from it skips nothing. -/
theorem skipWS_content (l : List Char) (mode : Bool) (r : List Char)
    (h : skipWSAux mode l = .content r) : skipWSAux false r = .content r := by
  induction l generalizing mode with
  | nil =>
    cases mode <;> simp [skipWSAux] at h
    subst h; rfl
  | cons c cs ih =>
    cases mode <;> rw [skipWSAux] at h
    · by_cases h1 : isSpaceC c
      · rw [if_pos h1] at h
        by_cases h2 : c = nlC
        · rw [if_pos h2] at h; exact absurd h (by simp)
        · rw [if_neg h2] at h; exact ih _ h
      · rw [if_neg h1] at h
        by_cases h3 : c = '#'
        · rw [if_pos h3] at h; exact absurd h (skipComment_ne_content _ _)
        · rw [if_neg h3] at h
          by_cases h4 : c = backslashC
          · rw [if_pos h4] at h; exact ih _ h
          · rw [if_neg h4] at h
            have hr : r = c :: cs := by
              have := h; simp at this; exact this.symm
            subst hr
            rw [skipWSAux, if_neg h1, if_neg h3, if_neg h4]
    · by_cases h1 : c = nlC
      · rw [if_pos h1] at h; exact ih _ h
      · rw [if_neg h1] at h
        by_cases h2 : isSpaceC c
        · rw [if_pos h2] at h; exact ih _ h
        · rw [if_neg h2] at h; exact absurd h (by simp)

/-- Re-tokenizing from the recorded pushback position reproduces the
tokenization exactly (token, token text, pushback position and final
cursor), whenever the original tokenization succeeded. -/
theorem tokenizeL_replay (l : List Char) (t : Tok)
    (h : (tokenizeL l).res = .ok t) : tokenizeL ((tokenizeL l).lastP) = tokenizeL l := by
  cases hs : skipWSAux false l with
  | lf rest =>
    have e1 : tokenizeL l = ⟨.ok .tLF, none, l, rest⟩ := by unfold tokenizeL; rw [hs]
    rw [e1]
    exact e1
  | cend =>
    have e1 : tokenizeL l = ⟨.ok .tEnd, none, l, []⟩ := by unfold tokenizeL; rw [hs]
    rw [e1]
    exact e1
  | bad rest =>
    have e1 : tokenizeL l = ⟨.error ("Bad '\\' at end of line"), none, l, rest⟩ := by
      unfold tokenizeL; rw [hs]
    rw [e1] at h
    exact absurd h (by simp)
  | content r =>
    have e1 : tokenizeL l = recognizeTok r := by unfold tokenizeL; rw [hs]
    have hlast : (recognizeTok r).lastP = r := by
      unfold recognizeTok
      cases r with
      | nil => rfl
      | cons c cs =>
        dsimp only
        repeat' split
        all_goals rfl
    rw [e1, hlast]
    unfold tokenizeL
    rw [skipWS_content l false r hs]

/-- One tokenization step then pushback then re-tokenization reproduces
the token and the full lexer state. -/
theorem tokenize_replay (m : Musl) (l : List Char) (t : Tok) (m1 : Musl)
    (hs : m.s = some l) (h : tokenize m = .ok (t, m1)) :
    tokenize (tok_reset m1) = .ok (t, m1) := by
  unfold tokenize at h
  rw [hs] at h
  dsimp only at h
  cases hres : (tokenizeL l).res with
  | error e => rw [hres] at h; exact absurd h (by simp)
  | ok t2 =>
    rw [hres] at h
    simp only [Except.ok.injEq, Prod.mk.injEq] at h
    obtain ⟨ht, hm⟩ := h
    subst hm
    rw [← ht]
    have hrep : tokenizeL ((tokenizeL l).lastP) = tokenizeL l :=
      tokenizeL_replay l t2 (by rw [hres])
    have hreset : tok_reset (tokState m l) = {tokState m l with s := some (tokenizeL l).lastP} := by
      unfold tok_reset tokState
      rfl
    rw [hreset]
    unfold tokenize
    dsimp only
    rw [hrep, hres]
    unfold tokState
    cases htk : (tokenizeL l).tokText <;> simp [htk, hrep]

/-- Claim C9: after tokenizing one token, requesting pushback and
re-tokenizing produces the same token and leaves the interpreter in the
same state (cursor, pushback position and token buffer included); and
exactly one level of pushback is supported — `tok_reset` is idempotent,
so a second pushback cannot reach any earlier token. -/
theorem claim9_pushback :
    (∀ m l t m1, m.s = some l → tokenize m = .ok (t, m1) →
      tokenize (tok_reset m1) = .ok (t, m1)) ∧
    (∀ m, tok_reset (tok_reset m) = tok_reset m) := by
  refine ⟨tokenize_replay, ?_⟩
  intro m
  cases h : m.last <;> simp [tok_reset, h]

theorem claim9_witness :
    tokenize (tok_reset (tokState {hostMusl with s := some ("x = 1".data)} ("x = 1".data)))
      = .ok (.tIdent, tokState {hostMusl with s := some ("x = 1".data)} ("x = 1".data)) :=
  claim9_pushback.1 {hostMusl with s := some ("x = 1".data)} ("x = 1".data) .tIdent _ rfl rfl

/-- Claim C6: `mu_gosub` restores the caller's cursor and GOSUB stack on
every return path — the label not found, the stack full, the nested
statement loop completing, or the nested loop failing with an error that
is caught at this boundary (the theorem quantifies over every fuel
level, hence over every outcome of the nested loop; totality of
`mu_gosub` is the model of the error being caught rather than
propagated). -/
theorem claim6_gosub_restores (fuel : Nat) (m : Musl) (label : String) :
    (mu_gosub fuel m label).2.s = m.s ∧
    (mu_gosub fuel m label).2.gosub_stack = m.gosub_stack := by
  unfold mu_gosub
  cases hf : find_var m.labels label with
  | none => exact ⟨rfl, rfl⟩
  | some pos =>
    dsimp only
    by_cases hlen : m.gosub_stack.length ≥ MAX_GOSUB - 1
    · rw [if_pos hlen]
      exact ⟨rfl, rfl⟩
    · rw [if_neg hlen]
      cases hp : program fuel true
          {m with s := some pos, last := none, gosub_stack := none :: m.gosub_stack} with
      | ok r => exact ⟨rfl, rfl⟩
      | error e => obtain ⟨e1, m2⟩ := e; exact ⟨rfl, rfl⟩

/-- Claim C8: the integer-to-string rendering and string-to-integer
parsing used by the weak coercion (`par_as_str` / `par_as_int`, the same
pair backing `mu_get_str` / `mu_get_num`) are mutually inverse on every
integer, and the API round trips of the spec hold concretely. -/
theorem claim8_roundtrip :
    (∀ n : Int, par_as_int (.str (par_as_str (.int n))) = n) ∧
    (mu_get_str (mu_set_num hostMusl "x" 5) "x").1 = some "5" ∧
    mu_get_num (mu_set_str hostMusl "y" "7") "y" = 7 := by
  refine ⟨?_, by decide, by decide⟩
  intro n
  show atoi (intToDec n) = n
  exact atoi_intToDec n

/-- Claim C10: reading an integer-valued variable through `mu_get_str`
rewrites the stored entry itself: afterwards the symbol table holds the
base-10 string rendering under a string tag, not the original integer. -/
theorem claim10_getstr_mutates (m : Musl) (name : String) (n : Int)
    (h : find_var m.vars name = some (.int n)) :
    (mu_get_str m name).1 = some (intToDec n) ∧
    (mu_get_str m name).2.vars = replace_first m.vars name (.str (intToDec n)) ∧
    find_var (mu_get_str m name).2.vars name = some (.str (intToDec n)) := by
  unfold mu_get_str
  rw [h]
  refine ⟨rfl, rfl, ?_⟩
  exact find_var_replace_first _ _ _ (by simp [h])

theorem claim10_witness :
    (mu_get_str {hostMusl with vars := [("x", Par.int 5)]} "x").1 = some "5" ∧
    find_var (mu_get_str {hostMusl with vars := [("x", Par.int 5)]} "x").2.vars "x"
      = some (.str "5") := by
  have h := claim10_getstr_mutates {hostMusl with vars := [("x", Par.int 5)]} "x" 5 (by rfl)
  exact ⟨by rw [h.1]; rfl, by rw [h.2.2]; rfl⟩

/- ===== Claim C3: comparison coercion ===== -/

/-- Modelled from the spec: "comparisons (`= < > ~`) compare as strings
if EITHER operand is a string, else as integers".  This is the
specification-side comparison rule, stated for refutation against
`compareVals`, the rule the code actually implements. -/
def specCompare (t : Char) (lhs rhs : Par) : Par :=
  match lhs, rhs with
  | .int li, .int ri =>
    .int (if (t = '=' ∧ li = ri) ∨ (t = '<' ∧ li < ri) ∨ (t = '>' ∧ li > ri) ∨ (t = '~' ∧ li ≠ ri)
          then 1 else 0)
  | _, _ =>
    let r := strcmpS (par_as_str lhs) (par_as_str rhs)
    .int (if (t = '=' ∧ r = 0) ∨ (t = '<' ∧ r < 0) ∨ (t = '>' ∧ r > 0) ∨ (t = '~' ∧ r ≠ 0)
          then 1 else 0)

/-- Claim C3 is false as stated: on `2 < "10"` the code compares as
integers (left operand is an integer), yielding 1, while comparing as
strings — as the claim requires when either operand is a string — yields
0; a full script agrees with the integer reading. -/
theorem claim3_counterexample :
    compareVals '<' (.int 2) (.str "10") = .int 1 ∧
    specCompare '<' (.int 2) (.str "10") = .int 0 ∧
    (mu_run 200 hostMusl ("x = 2 < \"10\"\n").data).1 = true ∧
    mu_get_num (mu_run 200 hostMusl ("x = 2 < \"10\"\n").data).2 "x" = 1 := by
  refine ⟨by decide, by decide, by decide, by decide⟩

/-- Claim C3 amended: the comparison dispatches on the LEFT operand's
type only.  A string left operand coerces the right to string and
compares via `strcmp`; an integer left operand coerces the right to
integer — even when the right operand is a string.  The code agrees with
the claimed either-operand rule whenever the operand types agree, and
differs exactly in the integer-left / string-right case. -/
theorem claim3_amended :
    (∀ t li rhs, compareVals t (.int li) rhs = compareVals t (.int li) (.int (par_as_int rhs))) ∧
    (∀ t ls rhs, compareVals t (.str ls) rhs = compareVals t (.str ls) (.str (par_as_str rhs))) ∧
    (∀ t li ri, (t = '=' ∨ t = '<' ∨ t = '>' ∨ t = '~') →
      compareVals t (.int li) (.int ri) = specCompare t (.int li) (.int ri)) ∧
    (∀ t ls rs, compareVals t (.str ls) (.str rs) = specCompare t (.str ls) (.str rs)) := by
  refine ⟨fun t li rhs => rfl, fun t ls rhs => rfl, ?_, fun t ls rs => rfl⟩
  intro t li ri ht
  rcases ht with h | h | h | h <;> subst h <;>
    simp only [compareVals, specCompare, par_as_int] <;>
    split <;> split <;> simp_all

theorem claim3_witness :
    compareVals '<' (.int 2) (.str "10") = compareVals '<' (.int 2) (.int (par_as_int (.str "10"))) ∧
    compareVals '<' (.int 7) (.int 9) = specCompare '<' (.int 7) (.int 9) :=
  ⟨claim3_amended.1 '<' 2 (.str "10"), claim3_amended.2.2.1 '<' 7 9 (by decide)⟩

/- ===== Claim C4: label table lifetime ===== -/

/-- Claim C4 fails on the code, and the failure contradicts the code's
own intent (the comment "Delete the labels, case another script is run"):
`mu_run` clears the label table only on its success path.  After a
failing run the table still holds the failing script's labels, and a
subsequent run of an unrelated script that reuses a label name is
spuriously rejected with "Duplicate label".  The success path does clear
the table. -/
theorem claim4_bug_eval :
    (mu_run 300 hostMusl ("10 x = 1/0\n").data).1 = false ∧
    (mu_run 300 hostMusl ("10 x = 1/0\n").data).2.labels ≠ [] ∧
    (mu_run 300 (mu_run 300 hostMusl ("10 x = 1/0\n").data).2 ("10 y = 2\n").data).1 = false ∧
    mu_error_msg (mu_run 300 (mu_run 300 hostMusl ("10 x = 1/0\n").data).2
      ("10 y = 2\n").data).2 = "Duplicate label '10'" ∧
    (mu_run 300 hostMusl ("10 y = 2\n").data).1 = true ∧
    (mu_run 300 hostMusl ("10 y = 2\n").data).2.labels = [] := by
  refine ⟨by decide, by decide, by decide, by decide, by decide, by decide⟩

/- ===== Symbolic one-step lemmas about the statement executor ===== -/

theorem stmt_succ (fuel : Nat) (m : Musl) : stmt (fuel + 1) m = stmtBody (interpN fuel) m := rfl

theorem fparams_succ (fuel : Nat) (name : String) (m : Musl) :
    fparams (fuel + 1) name m = fparamsBody (interpN fuel) name m := rfl

/-- Projection of the state out of a successful interpreter result (used
to name intermediate states in concrete witnesses). -/
def okSnd {α : Type} (r : ExM (α × Musl)) (d : Musl) : Musl :=
  match r with
  | .ok (_, m) => m
  | .error _ => d

/-- RETURN with an empty GOSUB stack is fatal (checked before the active
flag is even consulted), and the carried state is exactly the state
before the pop — nothing is read or written below the stack. -/
theorem stmt_return_underflow (fuel : Nat) (m m1 : Musl)
    (h1 : tokenize m = .ok (.tReturn, m1)) (h2 : m1.gosub_stack = []) :
    stmt (fuel + 1) m = .error (.err ("GOSUB stack underflow"), m1) := by
  rw [stmt_succ]
  unfold stmtBody
  rw [h1]
  simp [h2, throwErr]

/-- An active GOSUB with the stack at its bound is fatal before any push:
the carried state still has the full stack, unmodified. -/
theorem stmt_gosub_overflow (fuel : Nat) (m m1 m2 : Musl) (u : Tok)
    (h1 : tokenize m = .ok (.tGosub, m1)) (h2 : tokenize m1 = .ok (u, m2))
    (hu : u = .tIdent ∨ u = .tNumber) (ha : m2.active = true)
    (hlen : m2.gosub_stack.length ≥ MAX_GOSUB - 1) :
    stmt (fuel + 1) m = .error (.err ("GOSUB stack overflow"), m2) := by
  rw [stmt_succ]
  unfold stmtBody
  rw [h1]
  simp only [exBindOk]
  have hlen' : MAX_GOSUB ≤ m2.gosub_stack.length + 1 := by
    unfold MAX_GOSUB at hlen ⊢
    omega
  rcases hu with h | h <;> subst h <;> simp [h2, ha, hlen', throwErr]

/-- FOR with the FOR stack at its bound is fatal before any push. -/
theorem stmt_for_overflow (fuel : Nat) (m m1 : Musl)
    (h1 : tokenize m = .ok (.tFor, m1)) (hlen : m1.for_stack.length ≥ MAX_FOR) :
    stmt (fuel + 1) m = .error (.err ("FOR stack overflow"), m1) := by
  rw [stmt_succ]
  unfold stmtBody
  rw [h1]
  simp [hlen, throwErr]

/-- An active NEXT with an empty FOR stack is fatal. -/
theorem stmt_next_underflow (fuel : Nat) (m m1 : Musl)
    (h1 : tokenize m = .ok (.tNext, m1)) (ha : m1.active = true)
    (hst : m1.for_stack = []) :
    stmt (fuel + 1) m = .error (.err ("FOR stack underflow"), m1) := by
  rw [stmt_succ]
  unfold stmtBody
  rw [h1]
  simp [ha, hst, throwErr]

/-- The NEXT step, symbolically: with the loop frame on top of the FOR
stack, the entire header is re-evaluated by `forHeader` from the saved
position; then the loop variable's current value is compared to `stop`
for exact equality — equality pops the frame and resumes after NEXT
(`m1.s`), anything else adds `step` and leaves the cursor after the
header's DO, i.e. at the body. -/
theorem stmt_next_step (fuel : Nat) (m m1 m2 : Musl) (top : Option (List Char))
    (rest : List (Option (List Char))) (buf : String) (start sto stp : Int)
    (h1 : tokenize m = .ok (.tNext, m1)) (ha : m1.active = true)
    (hst : m1.for_stack = top :: rest)
    (hh : forHeader (interpN fuel) {m1 with s := top} = .ok ((buf, start, sto, stp), m2)) :
    stmt (fuel + 1) m = .ok (none,
      if mu_get_num m2 buf = sto then {m2 with s := m1.s, for_stack := m2.for_stack.tail}
      else mu_set_num m2 buf (mu_get_num m2 buf + stp)) := by
  rw [stmt_succ]
  unfold stmtBody
  rw [h1]
  rw [ha, hst] at hh
  simp [ha, hst, hh]
  split <;> rfl

/- ===== Symbolic lemmas about suppressed evaluation ===== -/

/-- Reading an undefined variable while the instance is inactive yields
integer 0 with the state untouched, instead of the fatal error raised
while active. -/
theorem varRead_inactive (m : Musl) (name : String) (ha : m.active = false)
    (hf : find_var m.vars name = none) : varRead m name = .ok (.int 0, m) := by
  unfold varRead
  rw [hf]
  simp [ha]

/-- A call to a DEFINED function while the instance is inactive parses
and evaluates its arguments, but the function itself is not invoked: the
result is the default integer 0 and the state is exactly the
post-argument state (in particular `out` and `vars` are whatever argument
evaluation left, with no contribution from the callee). -/
theorem fparams_inactive_skip (fuel : Nat) (name : String) (m m' : Musl)
    (ps : List Par) (f : FuncId)
    (hloop : (interpN fuel).fparamsLoop name [] m = .ok (ps, m'))
    (ha : m'.active = false) (hf : find_var m'.funcs name = some (some f)) :
    fparams (fuel + 1) name m = .ok (.int 0, m') := by
  rw [fparams_succ]
  unfold fparamsBody
  rw [hloop]
  simp [hf, ha]

/-- A call to an UNDEFINED function is fatal regardless of the active
flag: the lookup error is raised before `m->active` is consulted. -/
theorem fparams_undefined (fuel : Nat) (name : String) (m m' : Musl) (ps : List Par)
    (hloop : (interpN fuel).fparamsLoop name [] m = .ok (ps, m'))
    (hf : find_var m'.funcs name = none) :
    fparams (fuel + 1) name m
      = .error (.err ("Call to undefined function " ++ name ++ "()"), m') := by
  rw [fparams_succ]
  unfold fparamsBody
  rw [hloop]
  simp [hf, throwErr]

/-- In the label pre-pass, a numeric label at a line start whose value
does not exceed the previous numeric label is fatal. -/
theorem scanLoop_out_of_sequence (fuel : Nat) (m m1 m2 : Musl) (ln : Int)
    (h1 : tokenize m = .ok (.tLF, m1)) (h2 : tokenize m1 = .ok (.tNumber, m2))
    (hle : atoi m2.token ≤ ln) :
    scanLoop (fuel + 1) m false ln
      = .error (.err ("Label " ++ toString (atoi m2.token) ++ " out of sequence"), m2) := by
  unfold scanLoop
  simp [h1, h2, hle, throwErr]

/- ===== Concrete fixtures used by the claims ===== -/

def isOkB {α : Type} : ExM α → Bool
  | .ok _ => true
  | .error _ => false

def wRet : Musl := {hostMusl with s := some (("return\n").data)}
def wGosub : Musl :=
  {hostMusl with s := some (("gosub 10\n").data), gosub_stack := List.replicate 19 none}
def wFor : Musl :=
  {hostMusl with s := some (("for i = 1 to 2 do\n").data), for_stack := List.replicate 5 (some [])}
def wNextU : Musl := {hostMusl with s := some (("next\n").data)}
def wNextHdr : List Char := ("i = 1 to 3 do\n").data
def wNextOk : Musl :=
  {hostMusl with s := some (("next\n").data), for_stack := [some wNextHdr], vars := [("i", Par.int 3)]}
def wNextM1 : Musl := tokState wNextOk (("next\n").data)
def wNextM2 : Musl := okSnd (forHeader (interpN 20) {wNextM1 with s := some wNextHdr}) hostMusl
def wInact : Musl := {hostMusl with active := false}
def wParen : Musl := {hostMusl with s := some ((")").data), active := false}
def wScan : Musl := {hostMusl with s := some (("\n10 x = 1\n").data)}

/- ===== The claims ===== -/

/-- Claim C1 is false as stated: `IF 0 THEN X = UNDEFINED_FUNC()` does
NOT run without error — `fparams` raises "Call to undefined function"
before consulting the active flag, so the suppressed branch still fails
on the undefined name. -/
theorem claim1_counterexample :
    (mu_run 300 hostMusl ("if 0 then x = undefined_func()\n").data).1 = false ∧
    mu_error_msg (mu_run 300 hostMusl ("if 0 then x = undefined_func()\n").data).2
      = "Call to undefined function undefined_func()" :=
  ⟨by decide, by decide⟩

/-- Claim C1 amended: while the active flag is false, evaluation still
parses; a read of an undefined variable yields integer 0; a call to a
DEFINED function evaluates its arguments but does not invoke the
function (result is integer 0 and the state is exactly the post-argument
state); but a call to an UNDEFINED function raises the fatal "Call to
undefined function" error even inside the suppressed branch.  The last
two conjuncts instantiate the suppressed-call behaviour end to end: the
suppressed `print(5)` leaves the host output empty, and the suppressed
read of undefined `y` neither errors nor creates `x`. -/
theorem claim1_amended :
    (∀ m name, m.active = false → find_var m.vars name = none →
      varRead m name = .ok (.int 0, m)) ∧
    (∀ fuel name m m' ps f, (interpN fuel).fparamsLoop name [] m = .ok (ps, m') →
      m'.active = false → find_var m'.funcs name = some (some f) →
      fparams (fuel + 1) name m = .ok (.int 0, m')) ∧
    (∀ fuel name m m' ps, (interpN fuel).fparamsLoop name [] m = .ok (ps, m') →
      find_var m'.funcs name = none →
      fparams (fuel + 1) name m
        = .error (.err ("Call to undefined function " ++ name ++ "()"), m')) ∧
    (mu_run 300 hostMusl ("if 0 then x = print(5)\n").data).1 = true ∧
    (mu_run 300 hostMusl ("if 0 then x = print(5)\n").data).2.out = [] ∧
    (mu_run 300 hostMusl ("if 0 then x = y + 1\n").data).1 = true ∧
    find_var (mu_run 300 hostMusl ("if 0 then x = y + 1\n").data).2.vars "x" = none :=
  ⟨varRead_inactive, fparams_inactive_skip, fparams_undefined,
   by decide, by decide, by decide, by decide⟩

theorem claim1_witness :
    varRead wInact "zz" = .ok (.int 0, wInact) ∧
    fparams 4 "print" wParen = .ok (.int 0, tokState wParen ((")").data)) ∧
    fparams 4 "nosuch" wParen
      = .error (.err ("Call to undefined function nosuch()"), tokState wParen ((")").data)) := by
  refine ⟨?_, ?_, ?_⟩
  · exact claim1_amended.1 wInact "zz" rfl rfl
  · exact claim1_amended.2.1 3 "print" wParen _ [] .record rfl rfl rfl
  · exact claim1_amended.2.2.1 3 "nosuch" wParen _ [] rfl rfl

/-- Claim C2: NEXT re-evaluates the whole header from the saved FOR-stack
position, compares the loop variable to `stop` for exact equality, pops
and resumes after NEXT on equality, otherwise adds `step` and re-enters
the body (the first conjunct, symbolically over any state about to
execute NEXT); concretely `FOR i = 1 TO 3 DO print(i) NEXT` prints
1, 2, 3 in order, terminates with `i = 3`, a loop whose start equals its
stop runs its body exactly once, and the header really is re-read every
iteration: a body that shrinks `n` from 9 to 3 stops the loop at 3. -/
theorem claim2_for_next :
    (∀ fuel m m1 m2 top rest buf start sto stp,
      tokenize m = .ok (.tNext, m1) → m1.active = true →
      m1.for_stack = top :: rest →
      forHeader (interpN fuel) {m1 with s := top} = .ok ((buf, start, sto, stp), m2) →
      stmt (fuel + 1) m = .ok (none,
        if mu_get_num m2 buf = sto then {m2 with s := m1.s, for_stack := m2.for_stack.tail}
        else mu_set_num m2 buf (mu_get_num m2 buf + stp))) ∧
    (mu_run 300 hostMusl ("for i = 1 to 3 do\nprint(i)\nnext\n").data).1 = true ∧
    (mu_run 300 hostMusl ("for i = 1 to 3 do\nprint(i)\nnext\n").data).2.out
      = [.int 1, .int 2, .int 3] ∧
    mu_get_num (mu_run 300 hostMusl ("for i = 1 to 3 do\nprint(i)\nnext\n").data).2 "i" = 3 ∧
    (mu_run 300 hostMusl ("for i = 3 to 3 do\nprint(i)\nnext\n").data).2.out = [.int 3] ∧
    (mu_run 500 hostMusl ("n = 9\nfor i = 1 to n do\nprint(i)\nn = 3\nnext\n").data).2.out
      = [.int 1, .int 2, .int 3] :=
  ⟨stmt_next_step, by decide, by decide, by decide, by decide, by decide⟩

theorem claim2_witness :
    stmt 21 wNextOk = .ok (none,
      if mu_get_num wNextM2 "i" = 3
      then {wNextM2 with s := wNextM1.s, for_stack := wNextM2.for_stack.tail}
      else mu_set_num wNextM2 "i" (mu_get_num wNextM2 "i" + 1)) :=
  claim2_for_next.1 20 wNextOk wNextM1 wNextM2 (some wNextHdr) [] "i" 1 3 1 rfl rfl rfl (by rfl)

/-- Claim C5 is false for textual labels: a script with two labels named
`a` passes the pre-pass and runs without any duplicate-label error. -/
theorem claim5_counterexample :
    isOkB (scan_labels 300 {hostMusl with s := some (("a:\nx = 1\na:\nx = 2\n").data)}) = true ∧
    (mu_run 300 hostMusl ("a:\nx = 1\na:\nx = 2\n").data).1 = true :=
  ⟨by decide, by decide⟩

/-- Claim C5 amended: a numeric label that does not strictly exceed the
previous numeric label is fatal in the pre-pass (first conjunct,
symbolic; the duplicate-numeric case is caught by the same ordering
check, with the same "out of sequence" message).  Duplicate TEXTUAL
labels, however, are not detected at all: the pre-pass inserts both
silently and lookups resolve to the first occurrence. -/
theorem claim5_amended :
    (∀ fuel m m1 m2 ln, tokenize m = .ok (.tLF, m1) → tokenize m1 = .ok (.tNumber, m2) →
      atoi m2.token ≤ ln → scanLoop (fuel + 1) m false ln
        = .error (.err ("Label " ++ toString (atoi m2.token) ++ " out of sequence"), m2)) ∧
    (mu_run 300 hostMusl ("20 x = 1\n10 y = 2\n").data).1 = false ∧
    mu_error_msg (mu_run 300 hostMusl ("20 x = 1\n10 y = 2\n").data).2
      = "Label 10 out of sequence" ∧
    (mu_run 300 hostMusl ("10 x = 1\n10 y = 2\n").data).1 = false ∧
    mu_error_msg (mu_run 300 hostMusl ("10 x = 1\n10 y = 2\n").data).2
      = "Label 10 out of sequence" ∧
    (mu_run 300 hostMusl ("a:\nx = 1\na:\nx = 2\n").data).1 = true ∧
    (mu_run 300 hostMusl ("goto a\na: print(1)\nend\na: print(2)\nend\n").data).2.out
      = [.int 1] :=
  ⟨scanLoop_out_of_sequence, by decide, by decide, by decide, by decide, by decide, by decide⟩

theorem claim5_witness :
    scanLoop 5 wScan false 15 = .error (.err ("Label 10 out of sequence"),
      tokState (tokState wScan (("\n10 x = 1\n").data)) ((tokenizeL (("\n10 x = 1\n").data)).sP)) :=
  claim5_amended.1 4 wScan _ _ 15 rfl rfl (by decide)

/-- Claim C7: GOSUB/RETURN/FOR/NEXT stack overflow and underflow each
raise a fatal error whose carried state is untouched (no push, pop or
out-of-bounds write happens on the failing path), and each error message
is retrievable through `mu_error_msg` after the failed run. -/
theorem claim7_stack_errors :
    (∀ fuel m m1, tokenize m = .ok (.tReturn, m1) → m1.gosub_stack = [] →
      stmt (fuel + 1) m = .error (.err ("GOSUB stack underflow"), m1)) ∧
    (∀ fuel m m1 m2 u, tokenize m = .ok (.tGosub, m1) → tokenize m1 = .ok (u, m2) →
      (u = .tIdent ∨ u = .tNumber) → m2.active = true →
      m2.gosub_stack.length ≥ MAX_GOSUB - 1 →
      stmt (fuel + 1) m = .error (.err ("GOSUB stack overflow"), m2)) ∧
    (∀ fuel m m1, tokenize m = .ok (.tFor, m1) → m1.for_stack.length ≥ MAX_FOR →
      stmt (fuel + 1) m = .error (.err ("FOR stack overflow"), m1)) ∧
    (∀ fuel m m1, tokenize m = .ok (.tNext, m1) → m1.active = true → m1.for_stack = [] →
      stmt (fuel + 1) m = .error (.err ("FOR stack underflow"), m1)) ∧
    (mu_run 500 hostMusl ("10 gosub 10\n").data).1 = false ∧
    mu_error_msg (mu_run 500 hostMusl ("10 gosub 10\n").data).2 = "GOSUB stack overflow" ∧
    (mu_run 200 hostMusl ("return\n").data).1 = false ∧
    mu_error_msg (mu_run 200 hostMusl ("return\n").data).2 = "GOSUB stack underflow" ∧
    (mu_run 900 hostMusl ("for a = 1 to 2 do\nfor b = 1 to 2 do\nfor c = 1 to 2 do\nfor d = 1 to 2 do\nfor e = 1 to 2 do\nfor f = 1 to 2 do\nprint(9)\nnext\nnext\nnext\nnext\nnext\nnext\n").data).1 = false ∧
    mu_error_msg (mu_run 900 hostMusl ("for a = 1 to 2 do\nfor b = 1 to 2 do\nfor c = 1 to 2 do\nfor d = 1 to 2 do\nfor e = 1 to 2 do\nfor f = 1 to 2 do\nprint(9)\nnext\nnext\nnext\nnext\nnext\nnext\n").data).2 = "FOR stack overflow" ∧
    (mu_run 200 hostMusl ("next\n").data).1 = false ∧
    mu_error_msg (mu_run 200 hostMusl ("next\n").data).2 = "FOR stack underflow" :=
  ⟨stmt_return_underflow, stmt_gosub_overflow, stmt_for_overflow, stmt_next_underflow,
   by decide, by decide, by decide, by decide, by decide, by decide, by decide, by decide⟩

theorem claim7_witness :
    stmt 5 wRet = .error (.err ("GOSUB stack underflow"), tokState wRet (("return\n").data)) ∧
    stmt 5 wGosub = .error (.err ("GOSUB stack overflow"),
      tokState (tokState wGosub (("gosub 10\n").data)) ((tokenizeL (("gosub 10\n").data)).sP)) ∧
    stmt 5 wFor = .error (.err ("FOR stack overflow"),
      tokState wFor (("for i = 1 to 2 do\n").data)) ∧
    stmt 5 wNextU = .error (.err ("FOR stack underflow"), tokState wNextU (("next\n").data)) := by
  refine ⟨?_, ?_, ?_, ?_⟩
  · exact claim7_stack_errors.1 4 wRet _ rfl rfl
  · exact claim7_stack_errors.2.1 4 wGosub _ _ .tNumber rfl rfl (Or.inr rfl) rfl (by decide)
  · exact claim7_stack_errors.2.2.1 4 wFor _ rfl (by decide)
  · exact claim7_stack_errors.2.2.2.1 4 wNextU _ rfl rfl rfl
